import Mathlib

/-!
Verification development for the latin-for-fun round/challenge engine.

The definitions below are a shallow embedding of the TypeScript source
(src/src/App.tsx and the lexicon files under src/src/data).  Pure helper
functions become Lean functions; the React state updates of the two game
modes become explicit state-passing step functions; JavaScript randomness
(Math.random driving pick and the Fisher-Yates shuffle) is made explicit
as index arguments, so every reachable random outcome corresponds to some
choice of those arguments.  JavaScript numbers are modelled with Nat / Int
/ Rat; where the source multiplies by the float literals 1.6, 0.85 and 1.2
we use the exact rationals 8/5, 17/20 and 6/5, which is justified because
the products stay below 2^10 where the double rounding error (relative
error below 2^-52 per operation) can never move the value across a floor
or round boundary for the integer inputs the game produces (seconds left
at most 28, bonus sum at most 143).
-/

namespace LatinForFun

/-- Grammatical case selector, from the GramCase union type in App.tsx. -/
inductive GramCase where
  | nomSg
  | accSg
deriving DecidableEq, Repr

/-- Grammatical gender, from the literal union "m" | "f" | "n" in App.tsx. -/
inductive Gender where
  | m
  | f
  | n
deriving DecidableEq, Repr

/-- Noun lexical entry, from the Noun type in App.tsx; the forms object of
the source always carries both cases, so they are plain fields here. -/
structure Noun where
  id : String
  baseLemma : String
  decl : Nat
  gender : Gender
  meaning : String
  nomSg : String
  accSg : String
deriving DecidableEq, Repr

/-- Verb lexical entry, from the Verb type in App.tsx. -/
structure Verb where
  id : String
  pres1s : String
  meaning : String
  pres3s : String
  pattern : String
deriving DecidableEq, Repr

/-- Adjective lexical entry, from the Adjective type in App.tsx.  The
source accesses the agreement table through optional chaining, so a cell
may be missing; we model the table as an Option-valued function. -/
structure Adjective where
  id : String
  baseLemma : String
  meaning : String
  forms : GramCase → Gender → Option String

/-- The noun table from src/src/data (NOUNS). -/
def NOUNS : List Noun := [
  ⟨"puella", "puella", 1, .f, "girl", "puella", "puellam"⟩,
  ⟨"femina", "femina", 1, .f, "woman", "femina", "feminam"⟩,
  ⟨"nauta", "nauta", 1, .m, "sailor", "nauta", "nautam"⟩,
  ⟨"aqua", "aqua", 1, .f, "water", "aqua", "aquam"⟩,
  ⟨"insula", "insula", 1, .f, "island", "insula", "insulam"⟩,
  ⟨"silva", "silva", 1, .f, "forest", "silva", "silvam"⟩,
  ⟨"via", "via", 1, .f, "road", "via", "viam"⟩,
  ⟨"porta", "porta", 1, .f, "gate", "porta", "portam"⟩,
  ⟨"amicus", "amicus", 2, .m, "friend", "amicus", "amicum"⟩,
  ⟨"servus", "servus", 2, .m, "worker", "servus", "servum"⟩,
  ⟨"lupus", "lupus", 2, .m, "wolf", "lupus", "lupum"⟩,
  ⟨"filius", "filius", 2, .m, "son", "filius", "filium"⟩,
  ⟨"ager", "ager", 2, .m, "field", "ager", "agrum"⟩,
  ⟨"dominus", "dominus", 2, .m, "master", "dominus", "dominum"⟩,
  ⟨"verbum", "verbum", 2, .n, "word", "verbum", "verbum"⟩,
  ⟨"bellum", "bellum", 2, .n, "war", "bellum", "bellum"⟩,
  ⟨"donum", "donum", 2, .n, "gift", "donum", "donum"⟩,
  ⟨"oppidum", "oppidum", 2, .n, "town", "oppidum", "oppidum"⟩,
  ⟨"avis", "avis", 3, .f, "bird", "avis", "avem"⟩,
  ⟨"rex", "rex", 3, .m, "king", "rex", "regem"⟩]

/-- The verb table from src/src/data (VERBS). -/
def VERBS : List Verb := [
  ⟨"amo", "amō", "I love", "amat", "1st conj (-āre): -at"⟩,
  ⟨"timeo", "timeō", "I fear", "timet", "2nd conj (-ēre): -et"⟩,
  ⟨"laudo", "laudō", "I praise", "laudat", "1st conj (-āre): -at"⟩,
  ⟨"culpo", "culpō", "I blame", "culpat", "1st conj (-āre): -at"⟩,
  ⟨"ambulo", "ambulō", "I walk", "ambulat", "1st conj (-āre): -at"⟩,
  ⟨"curro", "currō", "I run", "currit", "3rd conj (-ere): -it"⟩,
  ⟨"venio", "veniō", "I come", "venit", "4th conj (-īre): -it"⟩,
  ⟨"discedo", "discedō", "I depart", "discedit", "3rd conj (-ere): -it"⟩,
  ⟨"redeo", "redeō", "I return", "redit", "4th conj (-īre): -it"⟩,
  ⟨"porto", "portō", "I carry", "portat", "1st conj (-āre): -at"⟩,
  ⟨"teneo", "teneō", "I hold", "tenet", "2nd conj (-ēre): -et"⟩,
  ⟨"capio", "capiō", "I take", "capit", "3rd-io conj: -it"⟩,
  ⟨"do", "dō", "I give", "dat", "1st conj (-āre): -at"⟩,
  ⟨"servo", "servō", "I save / keep", "servat", "1st conj (-āre): -at"⟩,
  ⟨"paro", "parō", "I prepare", "parat", "1st conj (-āre): -at"⟩,
  ⟨"video", "videō", "I see", "videt", "2nd conj (-ēre): -et"⟩,
  ⟨"audio", "audiō", "I hear", "audit", "4th conj (-īre): -it"⟩,
  ⟨"voco", "vocō", "I call", "vocat", "1st conj (-āre): -at"⟩,
  ⟨"specto", "spectō", "I watch", "spectat", "1st conj (-āre): -at"⟩,
  ⟨"narro", "narrō", "I tell", "narrat", "1st conj (-āre): -at"⟩,
  ⟨"habito", "habitō", "I live (inhabit)", "habitat", "1st conj (-āre): -at"⟩,
  ⟨"defendo", "defendō", "I defend", "defendit", "3rd conj (-ere): -it"⟩]

/-- Agreement table of the adjective bonus, from src/src/data (ADJECTIVES). -/
def bonusForms : GramCase → Gender → Option String
  | .nomSg, .m => some "bonus"
  | .nomSg, .f => some "bona"
  | .nomSg, .n => some "bonum"
  | .accSg, .m => some "bonum"
  | .accSg, .f => some "bonam"
  | .accSg, .n => some "bonum"

/-- Agreement table of the adjective magnus. -/
def magnusForms : GramCase → Gender → Option String
  | .nomSg, .m => some "magnus"
  | .nomSg, .f => some "magna"
  | .nomSg, .n => some "magnum"
  | .accSg, .m => some "magnum"
  | .accSg, .f => some "magnam"
  | .accSg, .n => some "magnum"

/-- Agreement table of the adjective parvus. -/
def parvusForms : GramCase → Gender → Option String
  | .nomSg, .m => some "parvus"
  | .nomSg, .f => some "parva"
  | .nomSg, .n => some "parvum"
  | .accSg, .m => some "parvum"
  | .accSg, .f => some "parvam"
  | .accSg, .n => some "parvum"

/-- Agreement table of the adjective celer. -/
def celerForms : GramCase → Gender → Option String
  | .nomSg, .m => some "celer"
  | .nomSg, .f => some "celeris"
  | .nomSg, .n => some "celer"
  | .accSg, .m => some "celerem"
  | .accSg, .f => some "celerem"
  | .accSg, .n => some "celer"

/-- The adjective table from src/src/data (ADJECTIVES). -/
def ADJECTIVES : List Adjective := [
  ⟨"bonus", "bonus", "good", bonusForms⟩,
  ⟨"magnus", "magnus", "big / great", magnusForms⟩,
  ⟨"parvus", "parvus", "small", parvusForms⟩,
  ⟨"celer", "celer", "fast", celerForms⟩]

/-- Helper clamp from App.tsx: clamp(n, a, b) = Math.max(a, Math.min(b, n)). -/
def clamp (n a b : Nat) : Nat := max a (min b n)

/-- Helper popLast from App.tsx: arr.slice(0, Math.max(0, arr.length - 1)). -/
def popLast {α : Type} (arr : List α) : List α := arr.take (arr.length - 1)

/-- Helper pick from App.tsx: arr[Math.floor(Math.random() * arr.length)].
The random draw is made explicit as the index argument i; every index below
the length is reachable, and i % length ranges over exactly those.  On an
empty list the source would yield undefined; the default d stands in for
that (all call sites pick from nonempty lists). -/
def pickL {α : Type} (l : List α) (d : α) (i : Nat) : α :=
  l.getD (i % l.length) d

/-- One swap step of the Fisher-Yates shuffle in App.tsx:
[a[i], a[j]] = [a[j], a[i]]. -/
def lswap {α : Type} (l : List α) (i j : Nat) : List α :=
  match l[i]?, l[j]? with
  | some x, some y => (l.set i y).set j x
  | _, _ => l

/-- The descending loop of shuffle in App.tsx: for i from the given bound
down to 1, swap position i with position js i % (i + 1); js supplies the
random draws Math.floor(Math.random() * (i + 1)). -/
def fisherAux {α : Type} (js : Nat → Nat) : Nat → List α → List α
  | 0, l => l
  | i + 1, l => fisherAux js i (lswap l (i + 1) (js (i + 1) % (i + 2)))

/-- Helper shuffle from App.tsx (Fisher-Yates over a copied array), with
the random draws explicit. -/
def shuffle {α : Type} (l : List α) (js : Nat → Nat) : List α :=
  fisherAux js (l.length - 1) l

/-- nounForm from App.tsx: noun.forms?.[gramCase]. -/
def nounForm (noun : Noun) : GramCase → String
  | .nomSg => noun.nomSg
  | .accSg => noun.accSg

/-- adjForm from App.tsx: adj.forms?.[gramCase]?.[gender]; undefined is
modelled as none. -/
def adjForm (adj : Adjective) (gramCase : GramCase) (gender : Gender) :
    Option String :=
  adj.forms gramCase gender

/-- The call-site fallback adjForm(adj, c, g) || adj.baseLemma used by
makeChallenge and makeTiles in App.tsx.  The JavaScript or-operator also
replaces an empty string (falsy), which we reproduce. -/
def adjResolve (adj : Adjective) (gramCase : GramCase) (gender : Gender) :
    String :=
  match adjForm adj gramCase gender with
  | none => adj.baseLemma
  | some s => if s = "" then adj.baseLemma else s

/-- Difficulty configuration row, from the DIFFICULTY table in App.tsx.
The xpMult floats 0.85, 1 and 1.2 are carried as exact fractions
multNum / multDen. -/
structure Difficulty where
  time : Nat
  roundSize : Nat
  sentenceLen : Nat
  multNum : Nat
  multDen : Nat
deriving DecidableEq, Repr

/-- Keys of the DIFFICULTY table. -/
inductive DifficultyKey where
  | easy
  | normal
  | hard
deriving DecidableEq, Repr

/-- The DIFFICULTY table from App.tsx. -/
def DIFFICULTY : DifficultyKey → Difficulty
  | .easy => ⟨28, 4, 3, 17, 20⟩
  | .normal => ⟨22, 5, 3, 1, 1⟩
  | .hard => ⟨18, 6, 4, 6, 5⟩

/-- The xpMult of a difficulty row as the exact rational value of the
float literal in the source. -/
def multQ : DifficultyKey → ℚ
  | .easy => 0.85
  | .normal => 1
  | .hard => 1.2

/-- xpFor from App.tsx.  Math.floor(secondsLeft * 1.6) equals
secondsLeft * 8 / 5 in natural division, and
Math.round(s * xpMult) equals the half-up rounding
(2 * multNum * s + multDen) / (2 * multDen) in natural division, for every
bonus sum s the game can produce (the double-precision products never
cross a floor or round boundary at these magnitudes; see the file header). -/
def xpFor (correct : Bool) (secondsLeft combo : Nat) (dk : DifficultyKey) :
    Nat :=
  let d := DIFFICULTY dk
  let base := if correct then 28 else 0
  let speed := if correct then clamp (secondsLeft * 8 / 5) 0 45 else 0
  let comboBonus := if correct then clamp (combo * 7) 0 70 else 0
  (2 * d.multNum * (base + speed + comboBonus) + d.multDen) / (2 * d.multDen)

/-- A bird-card reward.  Only the id is consulted by the game logic. -/
structure Bird where
  id : String
  common : String
  sci : String
deriving DecidableEq, Repr

/-- Modelled from the spec: the reward catalog BIRD_CARDS lives in
src/src/data/birds, which is not among the provided source files.  The
spec describes it as a predetermined ordered catalog of bird cards with
distinct identifiers, and its unlock example uses a 4-reward catalog. -/
def BIRD_CARDS : List Bird := [
  ⟨"cardinal", "Northern Cardinal", "Cardinalis cardinalis"⟩,
  ⟨"bluejay", "Blue Jay", "Cyanocitta cristata"⟩,
  ⟨"owl", "Great Horned Owl", "Bubo virginianus"⟩,
  ⟨"hawk", "Red-tailed Hawk", "Buteo jamaicensis"⟩]

/-- maybeUnlockBird from App.tsx: every 250 XP one further catalog entry
should be unlocked; if the unlocked list already has at least
min(totalXP / 250, catalog size) entries the result is null, otherwise
the first catalog entry whose id is not yet unlocked. -/
def maybeUnlockBird (totalXP : Nat) (unlocked : List String) : Option Bird :=
  let threshold := 250
  let shouldHave := totalXP / threshold
  let targetCount := clamp shouldHave 0 BIRD_CARDS.length
  if unlocked.length ≥ targetCount then none
  else (BIRD_CARDS.filter (fun b => ¬ b.id ∈ unlocked)).head?

/-- The best block of the persisted state in App.tsx. -/
structure Best where
  highScore : Nat
  bestStreak : Nat
  totalXP : Nat
deriving DecidableEq, Repr

/-- The persisted player state (PersistedState in App.tsx), restricted to
the fields the progression logic reads and writes. -/
structure Persisted where
  name : String
  difficulty : DifficultyKey
  best : Best
  unlocked : List String
  sound : Bool
deriving DecidableEq, Repr

/-- awardXP from App.tsx: fold one round outcome into the persisted state
and report the bird unlocked by this update, if any. -/
def awardXP (s : Persisted) (deltaXP comboMax : Nat) : Persisted × Option Bird :=
  let totalXP := s.best.totalXP + deltaXP
  let bestStreak := max s.best.bestStreak comboMax
  let highScore := max s.best.highScore deltaXP
  let unlock := maybeUnlockBird totalXP s.unlocked
  let unlocked :=
    match unlock with
    | some b => s.unlocked ++ [b.id]
    | none => s.unlocked
  ({ s with best := ⟨highScore, bestStreak, totalXP⟩, unlocked := unlocked },
   unlock)

/-- Round phase of either mode: the source encodes playing and paused. -/
inductive Phase where
  | playing
  | paused
deriving DecidableEq, Repr

/-- Round summary that onRoundEnd receives in App.tsx. -/
structure Summary where
  score : Nat
  comboMax : Nat
deriving DecidableEq, Repr

/-- Transient state of one match-mode round in App.tsx (MatchMode): the
sampled item ids, the selected Latin side, the resolved ids, the combo and
the score, plus the timer value and the phase. -/
structure MatchState where
  phase : Phase
  secondsLeft : Nat
  itemIds : List String
  selectedLatin : Option String
  doneIds : List String
  combo : Nat
  score : Nat
deriving DecidableEq, Repr

/-- chooseMeaning from App.tsx.  The pair is correct when the selected
Latin-side id equals the tapped meaning-side id.  Returns the new state,
the judgment (none when the tap was ignored), and the round-end summary
when this tap resolved the last pair (the deferred finishRound reads the
already-updated score and combo). -/
def chooseMeaning (dk : DifficultyKey) (id : String) (s : MatchState) :
    MatchState × Option Bool × Option Summary :=
  if s.phase ≠ Phase.playing then (s, none, none)
  else
    match s.selectedLatin with
    | none => (s, none, none)
    | some sel =>
      if id ∈ s.doneIds then (s, none, none)
      else if sel = id then
        let nextCombo := s.combo + 1
        let gained := xpFor true s.secondsLeft nextCombo dk
        let ended := s.doneIds.length + 1 ≥ s.itemIds.length
        ({ s with
            combo := nextCombo
            score := s.score + gained
            doneIds := s.doneIds ++ [id]
            selectedLatin := none
            phase := if ended then Phase.paused else Phase.playing },
         some true,
         if ended then some ⟨s.score + gained, nextCombo⟩ else none)
      else
        ({ s with combo := 0, selectedLatin := none }, some false, none)

/-- A sentence-construction challenge, from makeChallenge in App.tsx.
adjTargetsSubject models the adjTargets field: none when no adjective is
used, some true for target subject, some false for target object. -/
structure Challenge where
  len : Nat
  subject : Noun
  object : Noun
  verb : Verb
  adj : Option Adjective
  adjTargetsSubject : Option Bool
  english : String
  latin : List String
  grammarTip : String

/-- Fallback noun for the empty-pick case that the fixed lexicon never
reaches. -/
def defaultNoun : Noun := ⟨"", "", 0, .f, "", "", ""⟩

/-- Fallback verb for the empty-pick case that the fixed lexicon never
reaches. -/
def defaultVerb : Verb := ⟨"", "", "", "", ""⟩

/-- Fallback adjective for the empty-pick case that the fixed lexicon
never reaches. -/
def defaultAdj : Adjective := ⟨"", "", "", fun _ _ => none⟩

/-- makeChallenge from App.tsx.  The five Math.random draws are explicit:
si, oi, vi, ai index the picks of subject, object, verb and adjective, and
targetSubj is the coin flip adjTargets === "subject".  String.replace
matches the single occurrence of "I " that every verb meaning carries. -/
def makeChallenge (len si oi vi ai : Nat) (targetSubj : Bool) : Challenge :=
  let subject := pickL (NOUNS.filter (fun n => n.id ≠ "verbum")) defaultNoun si
  let object := pickL (NOUNS.filter (fun n => n.id ≠ subject.id)) defaultNoun oi
  let verb := pickL VERBS defaultVerb vi
  let useAdj := len ≥ 4
  let adj := if useAdj then some (pickL ADJECTIVES defaultAdj ai) else none
  let adjTargetsSubject := if useAdj then some targetSubj else none
  let subjWord := nounForm subject .nomSg
  let objWord := nounForm object .accSg
  let verbWord := verb.pres3s
  let adjWord :=
    match adj with
    | some a =>
      let targetNoun := if targetSubj then subject else object
      let aCase := if targetSubj then GramCase.nomSg else GramCase.accSg
      adjResolve a aCase targetNoun.gender
    | none => ""
  let latin :=
    if useAdj then
      if targetSubj then [adjWord, subjWord, verbWord, objWord]
      else [subjWord, verbWord, adjWord, objWord]
    else [subjWord, verbWord, objWord]
  let verbEn := verb.meaning.replace "I " ""
  let english :=
    match adj with
    | some a =>
      if targetSubj then
        "The " ++ a.meaning ++ " " ++ subject.meaning ++ " " ++ verbEn ++
          " the " ++ object.meaning ++ "."
      else
        "The " ++ subject.meaning ++ " " ++ verbEn ++ " the " ++ a.meaning ++
          " " ++ object.meaning ++ "."
    | none =>
      "The " ++ subject.meaning ++ " " ++ verbEn ++ " the " ++ object.meaning
        ++ "."
  let grammarTip :=
    if useAdj then
      "Adjectives match the noun: gender + case. NOM = subject, ACC = object."
    else
      "Subject = NOM. Object = ACC. Verb ending shows who does it (3rd sg)."
  ⟨len, subject, object, verb, adj, adjTargetsSubject, english, latin,
    grammarTip⟩

/-- One selectable tile, from makeTiles in App.tsx. -/
structure Tile where
  id : String
  text : String
  correct : Bool
deriving DecidableEq, Repr

/-- The correct tiles of a challenge, one per expected token, with ids
c-index-token as in makeTiles. -/
def correctTiles (ch : Challenge) : List Tile :=
  ch.latin.enum.map (fun p =>
    ⟨"c-" ++ toString p.1 ++ "-" ++ p.2, p.2, true⟩)

/-- The decoy tiles of a challenge, from makeTiles in App.tsx: the subject
in the wrong case, the object in the wrong case, the third-person form of
a different verb (pick made explicit by ovi), and, when the challenge
carries an adjective, that adjective in the wrong case for its target. -/
def decoyTiles (ch : Challenge) (ovi : Nat) : List Tile :=
  let otherVerb := pickL (VERBS.filter (fun v => v.id ≠ ch.verb.id))
    defaultVerb ovi
  [⟨"d-subj-wrong", nounForm ch.subject .accSg, false⟩,
   ⟨"d-obj-wrong", nounForm ch.object .nomSg, false⟩,
   ⟨"d-verb", otherVerb.pres3s, false⟩] ++
  (if ch.len ≥ 4 then
    match ch.adj with
    | some a =>
      let targetNoun :=
        if ch.adjTargetsSubject = some true then ch.subject else ch.object
      let wrongCase :=
        if ch.adjTargetsSubject = some true then GramCase.accSg
        else GramCase.nomSg
      [⟨"d-adj", adjResolve a wrongCase targetNoun.gender, false⟩]
    | none => []
  else [])

/-- makeTiles from App.tsx: shuffle correct tiles plus decoys, truncate to
at most 10 tiles, and shuffle the result again.  The two shuffles draw
their randomness from js1 and js2, the extra verb pick from ovi. -/
def makeTiles (ch : Challenge) (ovi : Nat) (js1 js2 : Nat → Nat) :
    List Tile :=
  let all := (shuffle (correctTiles ch ++ decoyTiles ch ovi) js1).take 10
  shuffle all js2

/-- Transient state of one construction-mode round in App.tsx
(SightingLogMode): the expected token sequence of the current challenge,
the partial answer, the combo and the score, plus timer and phase. -/
structure SightState where
  phase : Phase
  secondsLeft : Nat
  latin : List String
  answer : List Tile
  combo : Nat
  score : Nat
deriving DecidableEq, Repr

/-- tapTile from App.tsx.  A tap is ignored while paused, when all slots
are filled, or when the tile is already part of the answer.  When the tap
fills the last slot the built sentence is judged: the space-joined tile
texts must equal the space-joined expected tokens.  A correct sentence
awards XP, ends the round and emits the summary with the updated score and
combo; a wrong sentence resets the combo and the deferred update removes
only the last tile.  Returns the new state, the judgment and the summary. -/
def tapTile (dk : DifficultyKey) (tile : Tile) (s : SightState) :
    SightState × Option Bool × Option Summary :=
  if s.phase ≠ Phase.playing then (s, none, none)
  else if s.answer.length ≥ s.latin.length then (s, none, none)
  else if s.answer.any (fun a => a.id = tile.id) then (s, none, none)
  else
    let next := s.answer ++ [tile]
    if next.length = s.latin.length then
      let built := next.map (fun t => t.text)
      if String.intercalate " " built = String.intercalate " " s.latin then
        let nextCombo := s.combo + 1
        let gained := xpFor true s.secondsLeft nextCombo dk
        ({ s with
            answer := next
            combo := nextCombo
            score := s.score + gained
            phase := Phase.paused },
         some true, some ⟨s.score + gained, nextCombo⟩)
      else
        ({ s with answer := popLast next, combo := 0 }, some false, none)
    else
      ({ s with answer := next }, none, none)

/-- One timer tick of construction mode in App.tsx, identical in structure
to the match-mode tick. -/
def sightTick (s : SightState) : SightState × Option Summary :=
  if s.phase = Phase.playing then
    let sec := s.secondsLeft - 1
    if sec = 0 then
      ({ s with secondsLeft := sec, phase := Phase.paused },
       some ⟨s.score, s.combo⟩)
    else ({ s with secondsLeft := sec }, none)
  else (s, none)

/-- A JSON value, for modelling the persisted blob that loadState reads. -/
inductive JVal where
  | null
  | bool (b : Bool)
  | num (n : Int)
  | str (s : String)
  | arr (elts : List JVal)
  | obj (fields : List (String × JVal))

/-- JavaScript truthiness of a JSON value: null, false, 0 and the empty
string are falsy. -/
def falsy : JVal → Bool
  | .null => true
  | .bool b => !b
  | .num n => n = 0
  | .str s => s = ""
  | .arr _ => false
  | .obj _ => false

/-- The own enumerable key-value pairs that an object spread of the value
copies: objects contribute their fields, strings and arrays contribute
index-keyed entries, primitives contribute nothing. -/
def jsEnumKeys : JVal → List (String × JVal)
  | .obj fs => fs
  | .str s => (s.toList.enum.map (fun p => (toString p.1, JVal.str (String.singleton p.2))))
  | .arr es => es.enum.map (fun p => (toString p.1, p.2))
  | _ => []

/-- Property access v.k in JavaScript: fields of an object, undefined
(none) on other non-null values, and a thrown TypeError on null, which is
the one way loadState in App.tsx can fail. -/
def jsGetField : JVal → String → Except Unit (Option JVal)
  | .null, _ => Except.error ()
  | .obj fs, k => Except.ok (fs.lookup k)
  | _, _ => Except.ok none

/-- The object spread merge of two field lists: base keys keep their
position, values overridden by ext where present, and ext-only keys are
appended in order. -/
def mergeFields (base ext : List (String × JVal)) : List (String × JVal) :=
  base.map (fun kv => (kv.1, (ext.lookup kv.1).getD kv.2)) ++
    ext.filter (fun kv => (base.lookup kv.1).isNone)

/-- The section merge of loadState: spread base.section, then spread
(parsed.section || empty-object), where an absent or falsy section
contributes nothing. -/
def mergeSection (base : List (String × JVal)) (v : Option JVal) :
    List (String × JVal) :=
  let ext :=
    match v with
    | none => []
    | some jv => if falsy jv then [] else jsEnumKeys jv
  mergeFields base ext

/-- Replace the value stored at one (present) key. -/
def setField (l : List (String × JVal)) (k : String) (v : JVal) :
    List (String × JVal) :=
  l.map (fun kv => if kv.1 = k then (k, v) else kv)

/-- The player section defaults of loadState in App.tsx. -/
def basePlayerF : List (String × JVal) :=
  [("name", .str "Challenger"), ("difficulty", .str "normal")]

/-- The best section defaults of loadState in App.tsx. -/
def baseBestF : List (String × JVal) :=
  [("highScore", .num 0), ("bestStreak", .num 0), ("totalXP", .num 0)]

/-- The collection section defaults of loadState in App.tsx. -/
def baseCollectionF : List (String × JVal) :=
  [("unlocked", .arr [])]

/-- The settings section defaults of loadState in App.tsx. -/
def baseSettingsF : List (String × JVal) :=
  [("sound", .bool true)]

/-- The complete baseline default record of loadState in App.tsx. -/
def baseJ : JVal :=
  .obj [("player", .obj basePlayerF), ("best", .obj baseBestF),
    ("collection", .obj baseCollectionF), ("settings", .obj baseSettingsF)]

/-- The merging object literal of loadState in App.tsx, applied to the
parse result: spread base, spread parsed, then override the four sections
with their field-by-field merges.  Each parsed.section access throws when
parsed is null. -/
def mergeState (parsed : JVal) : Except Unit JVal := do
  let pl ← jsGetField parsed "player"
  let be ← jsGetField parsed "best"
  let co ← jsGetField parsed "collection"
  let se ← jsGetField parsed "settings"
  let baseFields := [("player", JVal.obj basePlayerF),
    ("best", JVal.obj baseBestF), ("collection", JVal.obj baseCollectionF),
    ("settings", JVal.obj baseSettingsF)]
  let top := mergeFields baseFields (jsEnumKeys parsed)
  let top := setField top "player" (.obj (mergeSection basePlayerF pl))
  let top := setField top "best" (.obj (mergeSection baseBestF be))
  let top := setField top "collection"
    (.obj (mergeSection baseCollectionF co))
  let top := setField top "settings" (.obj (mergeSection baseSettingsF se))
  pure (JVal.obj top)

/-- loadState from App.tsx.  The outer none models an absent stored blob
(the early return of the base record); some none models a blob that
JSON.parse rejects, where safeJsonParse substitutes the base record before
merging; some (some v) is a successfully parsed blob. -/
def loadState (raw : Option (Option JVal)) : Except Unit JVal :=
  match raw with
  | none => Except.ok baseJ
  | some pr => mergeState (pr.getD baseJ)

/-- The well-formed persisted record shape written by saveState: exactly
the canonical keys in canonical order. -/
def canonicalRecord (nm df : String) (hs bs xp : Int) (unl : List JVal)
    (sd : Bool) : JVal :=
  .obj [("player", .obj [("name", .str nm), ("difficulty", .str df)]),
    ("best", .obj [("highScore", .num hs), ("bestStreak", .num bs),
      ("totalXP", .num xp)]),
    ("collection", .obj [("unlocked", .arr unl)]),
    ("settings", .obj [("sound", .bool sd)])]

/-! Helper lemmas about the embedded randomness and arithmetic. -/

theorem cons_set_perm {α : Type} (t : List α) :
    ∀ (k : Nat) (u v : α), t[k]? = some u →
      List.Perm (u :: t.set k v) (v :: t) := by
  induction t with
  | nil => intro k u v h; simp at h
  | cons b t' ih =>
    intro k u v h
    cases k with
    | zero =>
      simp at h
      subst h
      simpa using List.Perm.swap v b t'
    | succ j =>
      simp at h
      simpa using ((List.Perm.swap b u _).trans ((ih j u v h).cons b)).trans
        (List.Perm.swap v b t')

theorem set_set_perm {α : Type} (l : List α) :
    ∀ (i j : Nat) (x y : α), l[i]? = some x → l[j]? = some y →
      List.Perm ((l.set i y).set j x) l := by
  induction l with
  | nil => intro i j x y h _; simp at h
  | cons a t ih =>
    intro i j x y hi hj
    cases i with
    | zero =>
      cases j with
      | zero =>
        simp at hi hj
        subst hi; subst hj
        simp
      | succ k =>
        simp at hi hj
        subst hi
        simpa using cons_set_perm t k y a hj
    | succ m =>
      cases j with
      | zero =>
        simp at hi hj
        subst hj
        simpa using cons_set_perm t m x a hi
      | succ k =>
        simp at hi hj
        simpa using (ih m k x y hi hj).cons a

theorem lswap_perm {α : Type} (l : List α) (i j : Nat) :
    List.Perm (lswap l i j) l := by
  unfold lswap
  split
  case _ x y hi hj => exact set_set_perm l i j x y hi hj
  case _ => exact List.Perm.refl l

theorem fisherAux_perm {α : Type} (js : Nat → Nat) :
    ∀ (n : Nat) (l : List α), List.Perm (fisherAux js n l) l := by
  intro n
  induction n with
  | zero => intro l; exact List.Perm.refl l
  | succ i ih =>
    intro l
    exact (ih _).trans (lswap_perm l (i + 1) _)

theorem shuffle_perm {α : Type} (l : List α) (js : Nat → Nat) :
    List.Perm (shuffle l js) l :=
  fisherAux_perm js (l.length - 1) l

theorem floor_natCast_div (a b : Nat) :
    ⌊((a : ℚ) / (b : ℚ))⌋ = ((a / b : Nat) : Int) := by
  rcases Nat.eq_zero_or_pos b with hb | hb
  · subst hb; simp
  · have h0 : (0 : ℚ) ≤ (a : ℚ) / (b : ℚ) := by positivity
    rw [← Int.natCast_floor_eq_floor h0]
    have := Nat.floor_div_nat (α := ℚ) (a : ℚ) b
    simp only [Nat.floor_natCast] at this
    rw [this]

theorem roundHalfUp_eq (num den t : Nat) (hden : 0 < den) :
    ⌊((num : ℚ) / (den : ℚ)) * (t : ℚ) + 1 / 2⌋ =
      (((2 * num * t + den) / (2 * den) : Nat) : Int) := by
  have hden' : ((den : ℚ)) ≠ 0 := by positivity
  have h : (num : ℚ) / (den : ℚ) * (t : ℚ) + 1 / 2 =
      ((2 * num * t + den : Nat) : ℚ) / ((2 * den : Nat) : ℚ) := by
    push_cast
    field_simp
    ring
  rw [h, floor_natCast_div]

theorem pickL_mem {α : Type} (l : List α) (d : α) (i : Nat) (h : l ≠ []) :
    pickL l d i ∈ l := by
  have hlen : i % l.length < l.length :=
    Nat.mod_lt _ (List.length_pos.2 h)
  unfold pickL
  rw [List.getD_eq_getElem?_getD, List.getElem?_eq_getElem hlen]
  exact List.getElem_mem hlen

theorem makeChallenge_subject (len si oi vi ai : Nat) (ts : Bool) :
    (makeChallenge len si oi vi ai ts).subject =
      pickL (NOUNS.filter (fun n => n.id ≠ "verbum")) defaultNoun si := rfl

theorem makeChallenge_len (len si oi vi ai : Nat) (ts : Bool) :
    (makeChallenge len si oi vi ai ts).len = len := rfl

theorem makeChallenge_adj (len si oi vi ai : Nat) (ts : Bool) :
    (makeChallenge len si oi vi ai ts).adj =
      if len ≥ 4 then some (pickL ADJECTIVES defaultAdj ai) else none := rfl

theorem makeChallenge_latin_length (len si oi vi ai : Nat) (ts : Bool) :
    (makeChallenge len si oi vi ai ts).latin.length =
      if 4 ≤ len then 4 else 3 := by
  by_cases h : 4 ≤ len <;> cases ts <;>
    simp [makeChallenge, h, ge_iff_le]

/-! Claim C8. -/

/-- C8: adjective form resolution as used by the challenge generator is
total: it always produces a string, and on a gender/case combination whose
cell is undefined it degrades to the lemma of the adjective instead of
failing (the or-fallback in makeChallenge and makeTiles); a defined
nonempty cell is returned unchanged. -/
theorem c8_adjective_resolution_total (a : Adjective) (c : GramCase)
    (g : Gender) :
    (adjForm a c g = none → adjResolve a c g = a.baseLemma) ∧
    (∀ s, adjForm a c g = some s → s ≠ "" → adjResolve a c g = s) := by
  constructor
  · intro h
    simp [adjResolve, h]
  · intro s hs hne
    simp [adjResolve, hs, hne]

/-- Witness for C8: an adjective with an undefined table degrades to its
lemma, and the lexicon adjective bonus resolves its feminine nominative
cell to bona. -/
theorem c8_witness :
    adjResolve ⟨"mirus", "mirus", "strange", fun _ _ => none⟩
        GramCase.nomSg Gender.m = "mirus" ∧
    adjResolve (ADJECTIVES.getD 0 defaultAdj) GramCase.nomSg Gender.f =
      "bona" := by
  constructor
  · exact (c8_adjective_resolution_total
      ⟨"mirus", "mirus", "strange", fun _ _ => none⟩
      GramCase.nomSg Gender.m).1 rfl
  · exact (c8_adjective_resolution_total (ADJECTIVES.getD 0 defaultAdj)
      GramCase.nomSg Gender.f).2 "bona" rfl (by decide)

/-! Claim C9. -/

/-- The neuter noun verbum as listed in the lexicon. -/
def verbumNoun : Noun := ⟨"verbum", "verbum", 2, .n, "word", "verbum", "verbum"⟩

/-- C9 counterexample: the lexicon noun verbum has both case forms defined
(nonempty) and a declension class, yet its accusative singular equals its
nominative singular, so the claimed inequality fails on the lexicon. -/
theorem c9_counterexample :
    verbumNoun ∈ NOUNS ∧ verbumNoun.decl = 2 ∧
    nounForm verbumNoun .nomSg ≠ "" ∧ nounForm verbumNoun .accSg ≠ "" ∧
    nounForm verbumNoun .accSg = nounForm verbumNoun .nomSg := by
  decide

/-- C9 amended: for every non-neuter noun of the lexicon the accusative
singular differs from the nominative singular; the neuter entries
(verbum, bellum, donum, oppidum) share the two forms by design. -/
theorem c9_amended (n : Noun) (h1 : n ∈ NOUNS) (h2 : n.gender ≠ Gender.n) :
    nounForm n .accSg ≠ nounForm n .nomSg := by
  have H : ∀ m ∈ NOUNS, m.gender ≠ Gender.n →
      nounForm m .accSg ≠ nounForm m .nomSg := by decide
  exact H n h1 h2

/-- Witness for C9: the amended statement applied to the noun puella. -/
theorem c9_witness :
    nounForm ⟨"puella", "puella", 1, .f, "girl", "puella", "puellam"⟩
        .accSg ≠
      nounForm ⟨"puella", "puella", 1, .f, "girl", "puella", "puellam"⟩
        .nomSg :=
  c9_amended ⟨"puella", "puella", 1, .f, "girl", "puella", "puellam"⟩
    (by decide) (by decide)

/-! Claim C10. -/

/-- C10: the subject of every generated construction challenge is never
the noun verbum (the subject pick filters it out), while verbum is
reachable as the object (witnessed by the explicit pick indices). -/
theorem c10_subject_never_verbum :
    (∀ (len si oi vi ai : Nat) (ts : Bool),
      (makeChallenge len si oi vi ai ts).subject.id ≠ "verbum") ∧
    (makeChallenge 3 0 13 9 0 true).object.id = "verbum" := by
  constructor
  · intro len si oi vi ai ts
    rw [makeChallenge_subject]
    have hs := pickL_mem (NOUNS.filter (fun n => n.id ≠ "verbum"))
      defaultNoun si (by decide)
    have hp := (List.mem_filter.1 hs).2
    simpa using hp
  · decide

/-! Claim C3. -/

/-- C3: one progression evaluation unlocks at most one reward.  When the
unlocked list already has at least min(totalXP / 250, catalog size)
entries nothing is unlocked; otherwise exactly the first catalog entry not
yet unlocked is returned, and one awardXP call grows the unlocked list by
at most one entry even when the experience jump crosses several 250-point
thresholds. -/
theorem c3_single_unlock (X : Nat) (U : List String) (p : Persisted)
    (d c : Nat) :
    (U.length ≥ min (X / 250) BIRD_CARDS.length →
      maybeUnlockBird X U = none) ∧
    (U.length < min (X / 250) BIRD_CARDS.length →
      ∃ b, maybeUnlockBird X U = some b ∧
        (BIRD_CARDS.filter (fun x => ¬ x.id ∈ U)).head? = some b) ∧
    (awardXP p d c).1.unlocked.length ≤ p.unlocked.length + 1 := by
  refine ⟨?_, ?_, ?_⟩
  · intro h
    have h' : U.length ≥ clamp (X / 250) 0 BIRD_CARDS.length := by
      simp only [clamp]
      omega
    simp only [maybeUnlockBird]
    rw [if_pos h']
  · intro h
    have h' : ¬ U.length ≥ clamp (X / 250) 0 BIRD_CARDS.length := by
      simp only [clamp]
      omega
    have h4 : U.length < BIRD_CARDS.length :=
      lt_of_lt_of_le h (min_le_right _ _)
    simp only [maybeUnlockBird]
    rw [if_neg h']
    by_cases h1 : ("cardinal" : String) ∈ U
    · by_cases h2 : ("bluejay" : String) ∈ U
      · by_cases h3 : ("owl" : String) ∈ U
        · by_cases hh : ("hawk" : String) ∈ U
          · exfalso
            have hsub : (["cardinal", "bluejay", "owl", "hawk"] :
                List String).toFinset ⊆ U.toFinset := by
              intro x hx
              simp only [List.toFinset_cons, List.toFinset_nil,
                Finset.mem_insert, Finset.mem_singleton] at hx
              rcases hx with h | h | h | h | h <;>
                first
                  | (subst h; simp [List.mem_toFinset, h1, h2, h3, hh])
                  | simp at h
            have hcard := Finset.card_le_card hsub
            have hle := List.toFinset_card_le U
            have hc4 : (["cardinal", "bluejay", "owl", "hawk"] :
                List String).toFinset.card = 4 := by decide
            rw [hc4] at hcard
            have : BIRD_CARDS.length = 4 := by decide
            omega
          · refine ⟨⟨"hawk", "Red-tailed Hawk", "Buteo jamaicensis"⟩, ?_, ?_⟩ <;>
              simp [BIRD_CARDS, h1, h2, h3, hh]
        · refine ⟨⟨"owl", "Great Horned Owl", "Bubo virginianus"⟩, ?_, ?_⟩ <;>
            simp [BIRD_CARDS, h1, h2, h3]
      · refine ⟨⟨"bluejay", "Blue Jay", "Cyanocitta cristata"⟩, ?_, ?_⟩ <;>
          simp [BIRD_CARDS, h1, h2]
    · refine ⟨⟨"cardinal", "Northern Cardinal", "Cardinalis cardinalis"⟩, ?_, ?_⟩ <;>
        simp [BIRD_CARDS, h1]
  · rcases hu : maybeUnlockBird (p.best.totalXP + d) p.unlocked with _ | b <;>
      simp [awardXP, hu]

/-- Witness for C3: a jump from 0 to 1000 XP with an empty unlocked set
crosses four thresholds yet returns exactly the single first catalog
entry. -/
theorem c3_witness :
    maybeUnlockBird 1000 [] =
      some ⟨"cardinal", "Northern Cardinal", "Cardinalis cardinalis"⟩ ∧
    (awardXP ⟨"Challenger", .normal, ⟨0, 0, 0⟩, [], true⟩ 1000 0).1.unlocked.length ≤
      0 + 1 := by
  have h := c3_single_unlock 1000 []
    ⟨"Challenger", .normal, ⟨0, 0, 0⟩, [], true⟩ 1000 0
  constructor
  · obtain ⟨b, hb, hd⟩ := h.2.1 (by decide)
    have hd' : (BIRD_CARDS.filter
        (fun x => ¬ x.id ∈ ([] : List String))).head? =
        some ⟨"cardinal", "Northern Cardinal", "Cardinalis cardinalis"⟩ := by
      decide
    rw [hb]
    rw [hd'] at hd
    exact hd.symm
  · simpa using h.2.2

/-! Claim C4. -/

/-- C4: on a wrong full construction submission exactly the most recently
appended tile is removed: the answer reverts to what it was before the
tap, keeping every earlier tile; popLast of an appended list drops only
the appended element and popLast of the empty list is empty. -/
theorem c4_gentle_failure :
    (∀ (dk : DifficultyKey) (tile : Tile) (s : SightState),
      s.phase = Phase.playing →
      s.answer.length + 1 = s.latin.length →
      s.answer.any (fun a => a.id = tile.id) = false →
      String.intercalate " " ((s.answer ++ [tile]).map (fun t => t.text)) ≠
        String.intercalate " " s.latin →
      (tapTile dk tile s).1.answer = s.answer ∧
      (tapTile dk tile s).2.1 = some false ∧
      (tapTile dk tile s).1.phase = Phase.playing) ∧
    popLast ([] : List Tile) = [] ∧
    (∀ (l : List Tile) (t : Tile), popLast (l ++ [t]) = l) := by
  have hpop : ∀ (l : List Tile) (t : Tile), popLast (l ++ [t]) = l := by
    intro l t
    simp [popLast]
  refine ⟨?_, rfl, hpop⟩
  intro dk tile s h1 h2 h3 h4
  have hA : ¬ s.phase ≠ Phase.playing := by simp [h1]
  have hB : ¬ s.answer.length ≥ s.latin.length := by omega
  have hD : (s.answer ++ [tile]).length = s.latin.length := by
    simp
    omega
  simp only [tapTile, if_neg hA, hB, if_false, h3, Bool.false_eq_true,
    if_neg, hD, if_pos, if_true]
  rw [if_neg h4]
  exact ⟨hpop s.answer tile, rfl, h1⟩

/-- Witness for C4: a concrete wrong submission (correct tiles in a wrong
order) keeps the two earlier tiles and only drops the tile just tapped. -/
theorem c4_witness :
    (tapTile .normal ⟨"c-0-puella", "puella", true⟩
        ⟨Phase.playing, 10, ["puella", "portat", "portam"],
          [⟨"c-2-portam", "portam", true⟩, ⟨"c-1-portat", "portat", true⟩],
          2, 50⟩).1.answer =
      [⟨"c-2-portam", "portam", true⟩, ⟨"c-1-portat", "portat", true⟩] ∧
    (tapTile .normal ⟨"c-0-puella", "puella", true⟩
        ⟨Phase.playing, 10, ["puella", "portat", "portam"],
          [⟨"c-2-portam", "portam", true⟩, ⟨"c-1-portat", "portat", true⟩],
          2, 50⟩).2.1 = some false := by
  have h := c4_gentle_failure.1 .normal ⟨"c-0-puella", "puella", true⟩
    ⟨Phase.playing, 10, ["puella", "portat", "portam"],
      [⟨"c-2-portam", "portam", true⟩, ⟨"c-1-portat", "portat", true⟩],
      2, 50⟩ rfl (by decide) (by decide) (by decide)
  exact ⟨h.1, h.2.1⟩

/-! Claim C1. -/

theorem xpFor_eq_round (dk : DifficultyKey) (b : Nat) :
    (((2 * (DIFFICULTY dk).multNum * b + (DIFFICULTY dk).multDen) /
        (2 * (DIFFICULTY dk).multDen) : Nat) : Int) =
      ⌊multQ dk * (b : ℚ) + 1 / 2⌋ := by
  cases dk
  case easy =>
    have hm : multQ DifficultyKey.easy = (17 : ℚ) / 20 := by
      norm_num [multQ]
    rw [hm]
    exact (roundHalfUp_eq 17 20 b (by norm_num)).symm
  case normal =>
    have hm : multQ DifficultyKey.normal = (1 : ℚ) / 1 := by
      norm_num [multQ]
    rw [hm]
    exact (roundHalfUp_eq 1 1 b (by norm_num)).symm
  case hard =>
    have hm : multQ DifficultyKey.hard = (6 : ℚ) / 5 := by
      norm_num [multQ]
    rw [hm]
    exact (roundHalfUp_eq 6 5 b (by norm_num)).symm

/-- C1: on every correct action in either mode the award is the half-up
rounding of difficultyMultiplier times (28 plus the speed bonus
clamp(floor(secondsRemaining times 1.6), 0, 45) plus the combo bonus
clamp(newComboLength times 7, 0, 70)) with newComboLength the previous
combo plus one; the combo grows by exactly one on a correct action in
either mode and a new score of old score plus that award is recorded,
while an incorrect action resets the combo to zero, awards nothing and
leaves the round running. -/
theorem c1_combo_scoring :
    (∀ (dk : DifficultyKey) (secondsLeft newCombo : Nat),
      (xpFor true secondsLeft newCombo dk : Int) =
        ⌊multQ dk * ((28 : ℚ) +
            max 0 (min 45 ((⌊(secondsLeft : ℚ) * 1.6⌋ : Int) : ℚ)) +
            max 0 (min 70 ((newCombo : ℚ) * 7))) + 1 / 2⌋) ∧
    (∀ (dk : DifficultyKey) (id : String) (s : MatchState) (sel : String),
      s.phase = Phase.playing → s.selectedLatin = some sel →
      id ∉ s.doneIds → sel = id →
        (chooseMeaning dk id s).1.combo = s.combo + 1 ∧
        (chooseMeaning dk id s).1.score =
          s.score + xpFor true s.secondsLeft (s.combo + 1) dk ∧
        (chooseMeaning dk id s).2.1 = some true) ∧
    (∀ (dk : DifficultyKey) (id : String) (s : MatchState) (sel : String),
      s.phase = Phase.playing → s.selectedLatin = some sel →
      id ∉ s.doneIds → sel ≠ id →
        (chooseMeaning dk id s).1.combo = 0 ∧
        (chooseMeaning dk id s).1.score = s.score ∧
        (chooseMeaning dk id s).1.phase = Phase.playing ∧
        (chooseMeaning dk id s).2.1 = some false) ∧
    (∀ (dk : DifficultyKey) (tile : Tile) (s : SightState),
      s.phase = Phase.playing →
      s.answer.length + 1 = s.latin.length →
      s.answer.any (fun a => a.id = tile.id) = false →
      String.intercalate " " ((s.answer ++ [tile]).map (fun t => t.text)) =
        String.intercalate " " s.latin →
        (tapTile dk tile s).1.combo = s.combo + 1 ∧
        (tapTile dk tile s).1.score =
          s.score + xpFor true s.secondsLeft (s.combo + 1) dk ∧
        (tapTile dk tile s).2.1 = some true) ∧
    (∀ (dk : DifficultyKey) (tile : Tile) (s : SightState),
      s.phase = Phase.playing →
      s.answer.length + 1 = s.latin.length →
      s.answer.any (fun a => a.id = tile.id) = false →
      String.intercalate " " ((s.answer ++ [tile]).map (fun t => t.text)) ≠
        String.intercalate " " s.latin →
        (tapTile dk tile s).1.combo = 0 ∧
        (tapTile dk tile s).1.score = s.score ∧
        (tapTile dk tile s).1.phase = Phase.playing ∧
        (tapTile dk tile s).2.1 = some false) := by
  refine ⟨?_, ?_, ?_, ?_, ?_⟩
  · intro dk s c
    have hfl : ⌊(s : ℚ) * 1.6⌋ = ((s * 8 / 5 : Nat) : Int) := by
      have h : (s : ℚ) * 1.6 = ((s * 8 : Nat) : ℚ) / ((5 : Nat) : ℚ) := by
        push_cast
        norm_num
        ring
      rw [h, floor_natCast_div]
    have hx : xpFor true s c dk =
        (2 * (DIFFICULTY dk).multNum *
            (28 + clamp (s * 8 / 5) 0 45 + clamp (c * 7) 0 70) +
          (DIFFICULTY dk).multDen) / (2 * (DIFFICULTY dk).multDen) := rfl
    have hinner : (28 : ℚ) +
        max 0 (min 45 ((⌊(s : ℚ) * 1.6⌋ : Int) : ℚ)) +
        max 0 (min 70 ((c : ℚ) * 7)) =
        ((28 + clamp (s * 8 / 5) 0 45 + clamp (c * 7) 0 70 : Nat) : ℚ) := by
      rw [hfl, Int.cast_natCast]
      simp only [clamp]
      push_cast
      ring_nf
    rw [hx, hinner]
    exact xpFor_eq_round dk _
  · intro dk id s sel h1 h2 h3 h4
    have hA : ¬ s.phase ≠ Phase.playing := by simp [h1]
    simp [chooseMeaning, hA, h2, h3, h4]
  · intro dk id s sel h1 h2 h3 h4
    have hA : ¬ s.phase ≠ Phase.playing := by simp [h1]
    simp [chooseMeaning, hA, h2, h3, h4, h1]
  · intro dk tile s h1 h2 h3 h4
    have hA : ¬ s.phase ≠ Phase.playing := by simp [h1]
    have hB : ¬ s.answer.length ≥ s.latin.length := by omega
    have hD : (s.answer ++ [tile]).length = s.latin.length := by
      simp
      omega
    simp only [tapTile, if_neg hA, hB, if_false, h3, Bool.false_eq_true,
      if_neg, hD, if_pos, if_true]
    rw [if_pos h4]
    exact ⟨rfl, rfl, rfl⟩
  · intro dk tile s h1 h2 h3 h4
    have hA : ¬ s.phase ≠ Phase.playing := by simp [h1]
    have hB : ¬ s.answer.length ≥ s.latin.length := by omega
    have hD : (s.answer ++ [tile]).length = s.latin.length := by
      simp
      omega
    simp only [tapTile, if_neg hA, hB, if_false, h3, Bool.false_eq_true,
      if_neg, hD, if_pos, if_true]
    rw [if_neg h4]
    exact ⟨rfl, rfl, h1, rfl⟩

/-- Witness for C1: the correct and the incorrect branch of both modes on
concrete states, with the award evaluated (43 XP at 5 seconds left, combo
1, multiplier 1). -/
theorem c1_witness :
    (chooseMeaning .normal "a"
        ⟨Phase.playing, 5, ["a", "b", "c"], some "a", [], 0, 0⟩).1.combo = 1 ∧
    (chooseMeaning .normal "a"
        ⟨Phase.playing, 5, ["a", "b", "c"], some "a", [], 0, 0⟩).1.score = 43 ∧
    (chooseMeaning .normal "c"
        ⟨Phase.playing, 5, ["a", "b", "c"], some "b", [], 2, 50⟩).1.combo = 0 ∧
    (tapTile .normal ⟨"c-2-portam", "portam", true⟩
        ⟨Phase.playing, 5, ["puella", "portat", "portam"],
          [⟨"c-0-puella", "puella", true⟩, ⟨"c-1-portat", "portat", true⟩],
          0, 0⟩).1.score = 43 ∧
    (tapTile .normal ⟨"c-0-puella", "puella", true⟩
        ⟨Phase.playing, 5, ["puella", "portat", "portam"],
          [⟨"c-2-portam", "portam", true⟩, ⟨"c-1-portat", "portat", true⟩],
          2, 50⟩).1.combo = 0 := by
  have hmc := c1_combo_scoring.2.1 .normal "a"
    ⟨Phase.playing, 5, ["a", "b", "c"], some "a", [], 0, 0⟩ "a"
    rfl rfl (by decide) rfl
  have hmw := c1_combo_scoring.2.2.1 .normal "c"
    ⟨Phase.playing, 5, ["a", "b", "c"], some "b", [], 2, 50⟩ "b"
    rfl rfl (by decide) (by decide)
  have hsc := c1_combo_scoring.2.2.2.1 .normal ⟨"c-2-portam", "portam", true⟩
    ⟨Phase.playing, 5, ["puella", "portat", "portam"],
      [⟨"c-0-puella", "puella", true⟩, ⟨"c-1-portat", "portat", true⟩],
      0, 0⟩ rfl (by decide) (by decide) (by decide)
  have hsw := c1_combo_scoring.2.2.2.2 .normal ⟨"c-0-puella", "puella", true⟩
    ⟨Phase.playing, 5, ["puella", "portat", "portam"],
      [⟨"c-2-portam", "portam", true⟩, ⟨"c-1-portat", "portat", true⟩],
      2, 50⟩ rfl (by decide) (by decide) (by decide)
  refine ⟨hmc.1, ?_, hmw.1, ?_, hsw.1⟩
  · rw [hmc.2.1]
    decide
  · rw [hsc.2.1]
    decide

/-! Claim C2 and claim C7 share facts about the tile set. -/

theorem correctTiles_length (ch : Challenge) :
    (correctTiles ch).length = ch.latin.length := by
  simp [correctTiles]

theorem correctTiles_correct (ch : Challenge) :
    ∀ t ∈ correctTiles ch, t.correct = true := by
  intro t ht
  simp only [correctTiles, List.mem_map] at ht
  obtain ⟨p, _, hp⟩ := ht
  rw [← hp]

theorem decoyTiles_correct (ch : Challenge) (ovi : Nat) :
    ∀ t ∈ decoyTiles ch ovi, t.correct = false := by
  intro t ht
  unfold decoyTiles at ht
  rcases List.mem_append.1 ht with h | h
  · simp only [List.mem_cons, List.not_mem_nil, or_false] at h
    rcases h with h | h | h <;> subst h <;> rfl
  · by_cases hl : ch.len ≥ 4
    · rw [if_pos hl] at h
      rcases hadj : ch.adj with _ | a
      · rw [hadj] at h
        simp at h
      · rw [hadj] at h
        simp only [List.mem_singleton] at h
        subst h
        rfl
    · rw [if_neg hl] at h
      simp at h

theorem decoyTiles_length_le (ch : Challenge) (ovi : Nat) :
    (decoyTiles ch ovi).length ≤ 4 := by
  unfold decoyTiles
  by_cases hl : ch.len ≥ 4
  · rw [if_pos hl]
    rcases ch.adj with _ | a <;> simp
  · rw [if_neg hl]
    simp

theorem makeChallenge_latin_le (len si oi vi ai : Nat) (ts : Bool) :
    (makeChallenge len si oi vi ai ts).latin.length ≤ 4 := by
  rw [makeChallenge_latin_length]
  split_ifs <;> norm_num

theorem makeTiles_perm (ch : Challenge) (ovi : Nat) (js1 js2 : Nat → Nat)
    (h : (correctTiles ch ++ decoyTiles ch ovi).length ≤ 10) :
    List.Perm (makeTiles ch ovi js1 js2)
      (correctTiles ch ++ decoyTiles ch ovi) := by
  unfold makeTiles
  have hlen : (shuffle (correctTiles ch ++ decoyTiles ch ovi) js1).length ≤
      10 := by
    rw [(shuffle_perm _ js1).length_eq]
    exact h
  rw [List.take_of_length_le hlen]
  exact (shuffle_perm _ js2).trans (shuffle_perm _ js1)

theorem makeChallenge_tiles_length_le (len si oi vi ai : Nat) (ts : Bool)
    (ovi : Nat) :
    (correctTiles (makeChallenge len si oi vi ai ts) ++
      decoyTiles (makeChallenge len si oi vi ai ts) ovi).length ≤ 10 := by
  have h1 := correctTiles_length (makeChallenge len si oi vi ai ts)
  have h2 := decoyTiles_length_le (makeChallenge len si oi vi ai ts) ovi
  have h3 := makeChallenge_latin_le len si oi vi ai ts
  rw [List.length_append, h1]
  omega

/-- C2: every correct tile of a generated construction challenge is
offered among the tiles (the cap of 10 never drops one), and a full
submission is judged correct exactly when the space-joined tile texts
equal the space-joined expected tokens; in particular the expected
sentence puella portat portam is judged correct and its reversed
permutation portam portat puella is judged incorrect. -/
theorem c2_construction_validation :
    (∀ (len si oi vi ai : Nat) (ts : Bool) (ovi : Nat) (js1 js2 : Nat → Nat)
        (t : Tile),
      t ∈ correctTiles (makeChallenge len si oi vi ai ts) →
      t ∈ makeTiles (makeChallenge len si oi vi ai ts) ovi js1 js2) ∧
    (∀ (dk : DifficultyKey) (tile : Tile) (s : SightState),
      s.phase = Phase.playing →
      s.answer.length + 1 = s.latin.length →
      s.answer.any (fun a => a.id = tile.id) = false →
      ((tapTile dk tile s).2.1 = some true ↔
        String.intercalate " " ((s.answer ++ [tile]).map (fun t => t.text)) =
          String.intercalate " " s.latin)) ∧
    (makeChallenge 3 0 6 9 0 true).latin = ["puella", "portat", "portam"] ∧
    (tapTile .normal ⟨"c-2-portam", "portam", true⟩
      ((tapTile .normal ⟨"c-1-portat", "portat", true⟩
        ((tapTile .normal ⟨"c-0-puella", "puella", true⟩
          ⟨Phase.playing, 10, (makeChallenge 3 0 6 9 0 true).latin, [],
            0, 0⟩).1)).1)).2.1 = some true ∧
    (tapTile .normal ⟨"c-0-puella", "puella", true⟩
      ((tapTile .normal ⟨"c-1-portat", "portat", true⟩
        ((tapTile .normal ⟨"c-2-portam", "portam", true⟩
          ⟨Phase.playing, 10, (makeChallenge 3 0 6 9 0 true).latin, [],
            0, 0⟩).1)).1)).2.1 = some false := by
  refine ⟨?_, ?_, by decide, by decide, by decide⟩
  · intro len si oi vi ai ts ovi js1 js2 t ht
    have hperm := makeTiles_perm (makeChallenge len si oi vi ai ts) ovi
      js1 js2 (makeChallenge_tiles_length_le len si oi vi ai ts ovi)
    exact hperm.mem_iff.2 (List.mem_append_left _ ht)
  · intro dk tile s h1 h2 h3
    have hA : ¬ s.phase ≠ Phase.playing := by simp [h1]
    have hB : ¬ s.answer.length ≥ s.latin.length := by omega
    have hD : (s.answer ++ [tile]).length = s.latin.length := by
      simp
      omega
    simp only [tapTile, if_neg hA, hB, if_false, h3, Bool.false_eq_true,
      if_neg, hD, if_pos, if_true]
    by_cases h4 : String.intercalate " "
        ((s.answer ++ [tile]).map (fun t => t.text)) =
        String.intercalate " " s.latin
    · rw [if_pos h4]
      simp only [List.map_append, List.map_cons, List.map_nil] at h4
      simp [h4]
    · rw [if_neg h4]
      simp only [List.map_append, List.map_cons, List.map_nil] at h4
      simp [h4]

/-- Witness for C2: a correct tile of the concrete challenge is offered,
and a one-slot round judges the matching submission correct. -/
theorem c2_witness :
    (⟨"c-0-puella", "puella", true⟩ : Tile) ∈
      makeTiles (makeChallenge 3 0 6 9 0 true) 0 (fun _ => 0) (fun _ => 0) ∧
    (tapTile .normal ⟨"x", "portam", true⟩
      ⟨Phase.playing, 5, ["portam"], [], 0, 0⟩).2.1 = some true := by
  constructor
  · exact c2_construction_validation.1 3 0 6 9 0 true 0 (fun _ => 0)
      (fun _ => 0) ⟨"c-0-puella", "puella", true⟩ (by decide)
  · exact (c2_construction_validation.2.1 .normal ⟨"x", "portam", true⟩
      ⟨Phase.playing, 5, ["portam"], [], 0, 0⟩ rfl (by decide)
      (by decide)).2 (by decide)

/-! Claim C7. -/

/-- C7 counterexample: the concrete challenge puella portat portam has 3
correct tokens, so the claim demands at least 10 minus 3 equals 7 decoy
tiles, but the generated tile set offers exactly 3 decoys. -/
theorem c7_counterexample :
    ((makeTiles (makeChallenge 3 0 6 9 0 true) 0 (fun _ => 0)
        (fun _ => 0)).filter (fun t => !t.correct)).length = 3 ∧
    ((makeTiles (makeChallenge 3 0 6 9 0 true) 0 (fun _ => 0)
        (fun _ => 0)).filter (fun t => t.correct)).length = 3 ∧
    ¬ ((3 : Nat) ≥ 10 - 3) := by
  refine ⟨by decide, by decide, by decide⟩

/-- C7 amended: the offered tile set is a shuffled union of the correct
tokens and the generated decoy tokens, capped at 10 tiles (the cap is
never reached, so nothing is dropped); the number of decoy tiles offered
equals the number of generated case-confusion decoys, namely 3 without an
adjective slot and 4 with one, which never exceeds the available distinct
decoys. -/
theorem c7_amended (len si oi vi ai : Nat) (ts : Bool) (ovi : Nat)
    (js1 js2 : Nat → Nat) :
    List.Perm (makeTiles (makeChallenge len si oi vi ai ts) ovi js1 js2)
      (correctTiles (makeChallenge len si oi vi ai ts) ++
        decoyTiles (makeChallenge len si oi vi ai ts) ovi) ∧
    (makeTiles (makeChallenge len si oi vi ai ts) ovi js1 js2).length ≤ 10 ∧
    ((makeTiles (makeChallenge len si oi vi ai ts) ovi js1 js2).filter
        (fun t => !t.correct)).length =
      (decoyTiles (makeChallenge len si oi vi ai ts) ovi).length ∧
    (decoyTiles (makeChallenge len si oi vi ai ts) ovi).length =
      (if 4 ≤ len then 4 else 3) := by
  have hperm := makeTiles_perm (makeChallenge len si oi vi ai ts) ovi
    js1 js2 (makeChallenge_tiles_length_le len si oi vi ai ts ovi)
  refine ⟨hperm, ?_, ?_, ?_⟩
  · rw [hperm.length_eq]
    exact makeChallenge_tiles_length_le len si oi vi ai ts ovi
  · rw [(hperm.filter _).length_eq, List.filter_append]
    have hc : (correctTiles (makeChallenge len si oi vi ai ts)).filter
        (fun t => !t.correct) = [] := by
      rw [List.filter_eq_nil_iff]
      intro t ht
      simp [correctTiles_correct _ t ht]
    have hd : (decoyTiles (makeChallenge len si oi vi ai ts) ovi).filter
        (fun t => !t.correct) =
        decoyTiles (makeChallenge len si oi vi ai ts) ovi := by
      rw [List.filter_eq_self]
      intro t ht
      simp [decoyTiles_correct _ ovi t ht]
    rw [hc, hd]
    simp
  · by_cases h : 4 ≤ len <;>
      simp [decoyTiles, makeChallenge_len, makeChallenge_adj, h, ge_iff_le]

/-! Claim C5. -/

theorem lookup_mergeMap (ext : List (String × JVal)) :
    ∀ (base : List (String × JVal)) (k : String) (d : JVal),
      List.lookup k base = some d →
      List.lookup k (base.map
          (fun kv => (kv.1, (List.lookup kv.1 ext).getD kv.2))) =
        some ((List.lookup k ext).getD d) := by
  intro base
  induction base with
  | nil => intro k d h; simp [List.lookup] at h
  | cons kv rest ih =>
    intro k d h
    rcases hk : (k == kv.1) with _ | _
    · simp only [List.lookup, hk] at h
      simp only [List.map_cons, List.lookup, hk]
      exact ih k d h
    · have hkeq : k = kv.1 := eq_of_beq hk
      simp only [List.lookup, hk] at h
      simp only [List.map_cons, List.lookup, hk]
      rw [Option.some_inj.1 h, hkeq]

theorem lookup_append_left {β : Type} (A B : List (String × β)) (k : String)
    (x : β) (h : List.lookup k A = some x) :
    List.lookup k (A ++ B) = some x := by
  induction A with
  | nil => simp [List.lookup] at h
  | cons kv rest ih =>
    rcases hk : (k == kv.1) with _ | _ <;>
      simp only [List.lookup, hk] at h <;>
      simp only [List.cons_append, List.lookup, hk]
    · exact ih h
    · exact h

theorem mergeFields_lookup (base ext : List (String × JVal)) (k : String)
    (d : JVal) (h : List.lookup k base = some d) :
    List.lookup k (mergeFields base ext) =
      some ((List.lookup k ext).getD d) :=
  lookup_append_left _ _ k _ (lookup_mergeMap ext base k d h)

/-- C6 counterexample: (a) the stored blob "null" is valid JSON, so
safeJsonParse returns null and the subsequent property access
parsed.player in loadState throws a TypeError - loading fails instead of
falling back to defaults; (b) a present field holding a value of the
wrong type (best.totalXP as a string) is preserved verbatim, not replaced
by its baseline default, so invalid fields are not defaulted either. -/
theorem c6_counterexample :
    loadState (some (some JVal.null)) = Except.error () ∧
    loadState (some (some (JVal.obj [("best",
        JVal.obj [("totalXP", JVal.str "not a number")])]))) =
      Except.ok (JVal.obj [
        ("player", JVal.obj basePlayerF),
        ("best", JVal.obj [("highScore", JVal.num 0),
          ("bestStreak", JVal.num 0),
          ("totalXP", JVal.str "not a number")]),
        ("collection", JVal.obj baseCollectionF),
        ("settings", JVal.obj baseSettingsF)]) :=
  ⟨rfl, rfl⟩

/-- C6 amended: loading never fails for an absent blob, an unparseable
blob, or any parsed value other than JSON null; merging is field-by-field
and independent: the loaded record carries each of the four sections as
the baseline section merged with the corresponding parsed section, and
within a section every baseline field that the parsed section supplies is
preserved as-is, whatever value it holds (no validity checking), while
every baseline field it omits - and every field of an absent or falsy
section - is replaced by its baseline default; a record containing only
best.totalXP 500 loads with totalXP 500 and defaults everywhere else, and
loading an already-well-formed record reproduces it exactly, so saving it
back is a no-op round-trip.  A parsed JSON null, however, makes the load
throw. -/
theorem c6_amended :
    loadState none = Except.ok baseJ ∧
    loadState (some none) = Except.ok baseJ ∧
    (∀ v, v ≠ JVal.null → ∃ r, loadState (some (some v)) = Except.ok r) ∧
    (∀ fs, ∃ top, loadState (some (some (JVal.obj fs))) =
        Except.ok (JVal.obj top) ∧
      List.lookup "player" top =
        some (JVal.obj (mergeSection basePlayerF (List.lookup "player" fs))) ∧
      List.lookup "best" top =
        some (JVal.obj (mergeSection baseBestF (List.lookup "best" fs))) ∧
      List.lookup "collection" top =
        some (JVal.obj
          (mergeSection baseCollectionF (List.lookup "collection" fs))) ∧
      List.lookup "settings" top =
        some (JVal.obj
          (mergeSection baseSettingsF (List.lookup "settings" fs)))) ∧
    (∀ (base l : List (String × JVal)) (k : String) (d : JVal),
      List.lookup k base = some d →
      List.lookup k (mergeSection base (some (JVal.obj l))) =
        some ((List.lookup k l).getD d)) ∧
    (∀ (base : List (String × JVal)) (k : String) (d : JVal)
        (v : Option JVal),
      List.lookup k base = some d →
      (v = none ∨ ∃ jv, v = some jv ∧ falsy jv = true) →
      List.lookup k (mergeSection base v) = some d) ∧
    loadState (some (some (JVal.obj
        [("best", JVal.obj [("totalXP", JVal.num 500)])]))) =
      Except.ok (canonicalRecord "Challenger" "normal" 0 0 500 [] true) ∧
    (∀ (nm df : String) (hs bs xp : Int) (unl : List JVal) (sd : Bool),
      loadState (some (some (canonicalRecord nm df hs bs xp unl sd))) =
        Except.ok (canonicalRecord nm df hs bs xp unl sd)) := by
  refine ⟨rfl, rfl, ?_, ?_, ?_, ?_, rfl, ?_⟩
  · intro v hv
    cases v with
    | null => exact absurd rfl hv
    | bool b => exact ⟨_, rfl⟩
    | num n => exact ⟨_, rfl⟩
    | str s => exact ⟨_, rfl⟩
    | arr es => exact ⟨_, rfl⟩
    | obj fs => exact ⟨_, rfl⟩
  · intro fs
    exact ⟨_, rfl, rfl, rfl, rfl, rfl⟩
  · intro base l k d h
    exact mergeFields_lookup base l k d h
  · intro base k d v h hv
    have hbase : List.lookup k (mergeFields base []) = some d := by
      have := mergeFields_lookup base [] k d h
      simpa using this
    rcases hv with hv | ⟨jv, hv, hf⟩
    · subst hv
      exact hbase
    · subst hv
      simp only [mergeSection, hf, if_true]
      exact hbase
  · intro nm df hs bs xp unl sd
    rfl

/-- Witness for C6: a supplied name field is preserved verbatim, an
omitted totalXP field falls back to its default, and a parsed number
loads without failing. -/
theorem c6_witness :
    List.lookup "name" (mergeSection basePlayerF
        (some (JVal.obj [("name", JVal.str "Ada")]))) =
      some (JVal.str "Ada") ∧
    List.lookup "totalXP" (mergeSection baseBestF none) =
      some (JVal.num 0) ∧
    (∃ r, loadState (some (some (JVal.num 5))) = Except.ok r) := by
  refine ⟨?_, ?_, c6_amended.2.2.1 (JVal.num 5)
    (fun h => JVal.noConfusion h)⟩
  · exact (c6_amended.2.2.2.2.1 basePlayerF [("name", JVal.str "Ada")]
      "name" (JVal.str "Challenger") rfl).trans rfl
  · exact c6_amended.2.2.2.2.2.1 baseBestF "totalXP" (JVal.num 0) none rfl
      (Or.inl rfl)

end LatinForFun
